import Mathlib

/-!
# Verification of `trgtools` TC fragment decoding (`TCReader.py`)

Shallow embedding of `src/python/trgtools/TCReader.py`.

The reader keeps a `Dataset` of decoded trigger candidates (`tc_data`) and,
in parallel, the jagged list of their activity groups (`ta_data`).
`read_fragment` walks a fragment byte buffer with a `while byte_idx <
fragment_data_size` loop; at each offset it hands the remaining bytes to the
external `trgdataformats.TriggerCandidate` overlay, copies the overlay's
fields into a NumPy record (wrapping each field to its dtype width), appends
the record to `tc_data`, advances `byte_idx` by the overlay-reported
`sizeof()`, builds a zero-initialised activity array of length `num_tas` and
fills it by enumerating the overlay's activity iterator, and appends that
group to `ta_data`.

The external library call is modelled as a parameter
`parse : List Nat → TriggerCandidate`: the overlay applied to the bytes from
the current offset to the end of the buffer.  Everything the source reads off
the overlay (header fields, `n_inputs()`, `sizeof()`, the activity iterator)
is a field of `TriggerCandidate`; theorems quantify over `parse`, i.e. over
all possible behaviours of the external library.  The Python `while` loop is
embedded with explicit fuel (`buf.length` suffices whenever every record
consumes at least one byte); fuel exhaustion (`ScanResult.hang`) models
non-termination of the source loop, and `ScanResult.indexError` models the
uncaught NumPy `IndexError` raised when the activity iterator yields more
elements than the zero-array `np.zeros(num_tas)` can hold.
-/

/-- Wrap a natural to an unsigned field of `w` bits, as NumPy does when
storing into a `np.uintN` dtype column. -/
def wrapU (w : Nat) (n : Nat) : Nat := n % 2 ^ w

/-- Wrap an integer to a signed 32-bit field, as NumPy does when storing
into an `np.int32` dtype column. -/
def wrapI32 (z : Int) : Int := (z + 2 ^ 31) % 2 ^ 32 - 2 ^ 31

/-- One activity as exposed by the external overlay's iterator
(`for ta in tc_datum`): the attributes the source reads at
`TCReader.py:147-160`. -/
structure TAView where
  adc_integral : Nat
  adc_peak : Nat
  algorithm : Nat
  channel_end : Int
  channel_peak : Int
  channel_start : Int
  detid : Nat
  time_activity : Nat
  time_end : Nat
  time_peak : Nat
  time_start : Nat
  type : Nat
  version : Nat
deriving Repr, DecidableEq

/-- The value of `trgdataformats.TriggerCandidate(fragment.get_data(byte_idx))`
as the source observes it: the `data` header fields, `n_inputs()`,
`sizeof()`, and the activity iterator's yield sequence. -/
structure TriggerCandidate where
  algorithm : Nat
  detid : Nat
  time_candidate : Nat
  time_end : Nat
  time_start : Nat
  type : Nat
  version : Nat
  n_inputs : Nat
  sizeofBytes : Nat
  tas : List TAView
deriving Repr, DecidableEq

/-- One row of `TCReader.tc_dt` (`TCReader.py:27-36`): the NumPy record the
source builds at `TCReader.py:127-136`, fields in dtype order with their
dtype widths. -/
structure TCData where
  algorithm : Nat
  detid : Nat
  num_tas : Nat
  time_candidate : Nat
  time_end : Nat
  time_start : Nat
  type : Nat
  version : Nat
deriving Repr, DecidableEq

/-- One row of `TCReader.ta_dt` (`TCReader.py:39-53`): the NumPy record the
source builds at `TCReader.py:147-161`. -/
structure TAData where
  adc_integral : Nat
  adc_peak : Nat
  algorithm : Nat
  channel_end : Int
  channel_peak : Int
  channel_start : Int
  detid : Nat
  time_activity : Nat
  time_end : Nat
  time_peak : Nat
  time_start : Nat
  type : Nat
  version : Nat
deriving Repr, DecidableEq

/-- `np_tc_datum` (`TCReader.py:127-136`): copy the overlay's fields into the
`tc_dt` record, each stored value wrapped to its column's dtype width
(`detid` and `version` to `uint16`, `num_tas` and the timestamps to
`uint64`; the two enum columns are stored as given). -/
def toTCData (c : TriggerCandidate) : TCData :=
  { algorithm := c.algorithm
    detid := wrapU 16 c.detid
    num_tas := wrapU 64 c.n_inputs
    time_candidate := wrapU 64 c.time_candidate
    time_end := wrapU 64 c.time_end
    time_start := wrapU 64 c.time_start
    type := c.type
    version := wrapU 16 c.version }

/-- One filled row of `np_ta_data` (`TCReader.py:147-161`): the source
explicitly converts `detid` with `np.uint16(...)`; the other stored values
are wrapped to their column dtype widths on assignment. -/
def toTAData (a : TAView) : TAData :=
  { adc_integral := wrapU 64 a.adc_integral
    adc_peak := wrapU 64 a.adc_peak
    algorithm := a.algorithm
    channel_end := wrapI32 a.channel_end
    channel_peak := wrapI32 a.channel_peak
    channel_start := wrapI32 a.channel_start
    detid := wrapU 16 a.detid
    time_activity := wrapU 64 a.time_activity
    time_end := wrapU 64 a.time_end
    time_peak := wrapU 64 a.time_peak
    time_start := wrapU 64 a.time_start
    type := a.type
    version := wrapU 16 a.version }

/-- One all-zero `ta_dt` row, as produced by `np.zeros(..., dtype=ta_dt)`
(`TCReader.py:145`). -/
def zeroTA : TAData :=
  { adc_integral := 0, adc_peak := 0, algorithm := 0, channel_end := 0
    channel_peak := 0, channel_start := 0, detid := 0, time_activity := 0
    time_end := 0, time_peak := 0, time_start := 0, type := 0, version := 0 }

/-- `np_ta_data = np.zeros(num_tas); for ta_idx, ta in enumerate(tc_datum):
np_ta_data[ta_idx] = ...` (`TCReader.py:145-161`).  Writing positions
`0..len-1` of a zero array of length `num_tas` yields the converted
activities followed by zero rows; if the iterator yields more than
`num_tas` elements the assignment at index `num_tas` raises `IndexError`
(`none`). -/
def fillTAs (num_tas : Nat) (tas : List TAView) : Option (List TAData) :=
  if tas.length ≤ num_tas then
    some (tas.map toTAData ++ List.replicate (num_tas - tas.length) zeroTA)
  else none

/-- The reader's dataset state: `self.tc_data`, `self.ta_data`
(`TCReader.py:66-67`) and the diagnostic counter `self._num_empty`
incremented at `TCReader.py:106`. -/
structure ReaderState where
  tc_data : List TCData
  ta_data : List (List TAData)
  num_empty : Nat
deriving Repr, DecidableEq

/-- The state after `__init__` (`TCReader.py:66-67`): both sequences empty.
The counter attribute itself is set up by the `HDF5Reader` base class, whose
file is not in the sources; modelled from the spec as the diagnostic
empty-fragment counter starting at zero. -/
def initState : ReaderState := { tc_data := [], ta_data := [], num_empty := 0 }

/-- `clear_data` (`TCReader.py:169-171`): reset both sequences to empty;
the diagnostic counter is untouched. -/
def clear_data (st : ReaderState) : ReaderState :=
  { st with tc_data := [], ta_data := [] }

/-- `__len__` (`TCReader.py:77-78`): the length of `tc_data`. -/
def readerLen (st : ReaderState) : Nat := st.tc_data.length

/-- Outcome of one `read_fragment` call.  `ok st ret idx`: normal return
with final state `st`, returned array `ret` (the last `np_tc_datum`, or the
empty array for an empty fragment) and final `byte_idx` value `idx`.
`indexError st idx`: the NumPy `IndexError` escaped (activity iterator
longer than `num_tas`) with the mutations made so far.  `hang`: the `while`
loop never reaches `byte_idx >= fragment_data_size` (fuel exhausted). -/
inductive ScanResult where
  | ok (st : ReaderState) (ret : List TCData) (finalIdx : Nat)
  | indexError (st : ReaderState) (finalIdx : Nat)
  | hang
deriving Repr, DecidableEq

/-- The `while byte_idx < fragment_data_size` loop of `read_fragment`
(`TCReader.py:119-162`), with fuel bounding the number of iterations.
`last` carries the current value of the `np_tc_datum` variable (the
one-element array returned after the loop, `TCReader.py:167`). -/
def scanLoop (parse : List Nat → TriggerCandidate) (buf : List Nat)
    (fuel byte_idx : Nat) (st : ReaderState) (last : List TCData) : ScanResult :=
  if byte_idx < buf.length then
    match fuel with
    | 0 => .hang
    | f + 1 =>
      let tc := parse (buf.drop byte_idx)
      let np_tc := toTCData tc
      let st1 : ReaderState := { st with tc_data := st.tc_data ++ [np_tc] }
      let idx1 := byte_idx + tc.sizeofBytes
      match fillTAs np_tc.num_tas tc.tas with
      | none => .indexError st1 idx1
      | some g =>
          scanLoop parse buf f idx1 { st1 with ta_data := st1.ta_data ++ [g] } [np_tc]
  else .ok st last byte_idx

/-- `read_fragment` (`TCReader.py:92-167`).  The fragment buffer is `buf`
(`fragment.get_data_size()` is its length; `fragment.get_data(byte_idx)` is
`buf.drop byte_idx`).  A zero-size fragment increments `_num_empty` and
returns the empty `tc_dt` array (`TCReader.py:105-115`); otherwise the scan
loop runs from `byte_idx = 0`.  Fuel `buf.length` is enough for every
execution in which each record consumes at least one byte. -/
def read_fragment (parse : List Nat → TriggerCandidate) (buf : List Nat)
    (st : ReaderState) : ScanResult :=
  if buf.length = 0 then
    .ok { st with num_empty := st.num_empty + 1 } [] 0
  else
    scanLoop parse buf buf.length 0 st []

/-- An all-zero `tc_dt` row, used as the out-of-range default when indexing
`tc_data`. -/
def tcZero : TCData :=
  { algorithm := 0, detid := 0, num_tas := 0, time_candidate := 0
    time_end := 0, time_start := 0, type := 0, version := 0 }

/-- The Dataset alignment invariant: `len(tc_data) == len(ta_data)` and for
every index `i` the activity group `ta_data[i]` has exactly the declared
`num_tas` of the candidate `tc_data[i]`. -/
def aligned (st : ReaderState) : Prop :=
  st.tc_data.length = st.ta_data.length ∧
  ∀ i, i < st.tc_data.length →
    (st.ta_data.getD i []).length = (st.tc_data.getD i tcZero).num_tas

/-- States reachable through the reader's public operations: the `__init__`
state, successful `read_fragment` calls on arbitrary fragments, and
`clear_data`. -/
inductive Reachable (parse : List Nat → TriggerCandidate) : ReaderState → Prop where
  | init : Reachable parse initState
  | read (buf : List Nat) (st st2 : ReaderState) (ret : List TCData) (i : Nat) :
      Reachable parse st → read_fragment parse buf st = .ok st2 ret i →
      Reachable parse st2
  | clear (st : ReaderState) : Reachable parse st → Reachable parse (clear_data st)

/-- A fragment buffer is well formed from offset `idx` with record sizes
`sizes` when it is exactly a concatenation of complete candidate records:
at each record boundary the overlay reports that record's positive size and
an activity list no longer than the stored activity count, and the sizes
land exactly on the end of the buffer. -/
def WFfrom (parse : List Nat → TriggerCandidate) (buf : List Nat) :
    Nat → List Nat → Prop
  | idx, [] => idx = buf.length
  | idx, s :: rest =>
      idx < buf.length ∧
      (parse (buf.drop idx)).sizeofBytes = s ∧
      0 < s ∧
      (parse (buf.drop idx)).tas.length ≤ (toTCData (parse (buf.drop idx))).num_tas ∧
      WFfrom parse buf (idx + s) rest

/-- Concatenation of two reader states, componentwise. -/
def catStates (a b : ReaderState) : ReaderState :=
  { tc_data := a.tc_data ++ b.tc_data
    ta_data := a.ta_data ++ b.ta_data
    num_empty := a.num_empty + b.num_empty }

/-- Prepend a state's contents to the state carried by a scan outcome. -/
def shiftRes (a : ReaderState) : ScanResult → ScanResult
  | .ok st2 l i => .ok (catStates a st2) l i
  | .indexError st2 i => .indexError (catStates a st2) i
  | .hang => .hang

/-- A fixed-size candidate overlay reporting four consumed bytes and no
activities, used for concrete runs. -/
def tcFour : TriggerCandidate :=
  { algorithm := 1, detid := 2, time_candidate := 3, time_end := 4
    time_start := 5, type := 6, version := 7, n_inputs := 0
    sizeofBytes := 4, tas := [] }

/-- An external-library behaviour returning `tcFour` at every offset. -/
def parseFour : List Nat → TriggerCandidate := fun _ => tcFour

/-- A valid one-candidate fragment buffer for `parseFour`: one record of
exactly four bytes. -/
def validBuf : List Nat := [10, 11, 12, 13]

/-- `validBuf` with its last byte removed. -/
def truncBuf : List Nat := validBuf.dropLast

/-- A concrete activity view. -/
def taOne : TAView :=
  { adc_integral := 100, adc_peak := 200, algorithm := 1, channel_end := 3
    channel_peak := 2, channel_start := 1, detid := 5, time_activity := 6
    time_end := 7, time_peak := 8, time_start := 9, type := 1, version := 1 }

/-- An overlay declaring two activities (`n_inputs = 2`) but yielding only
one from its iterator: an activity-count mismatch. -/
def tcMismatch : TriggerCandidate :=
  { algorithm := 1, detid := 2, time_candidate := 3, time_end := 4
    time_start := 5, type := 6, version := 1, n_inputs := 2
    sizeofBytes := 3, tas := [taOne] }

/-- An external-library behaviour returning `tcMismatch` at every offset. -/
def parseMismatch : List Nat → TriggerCandidate := fun _ => tcMismatch

/-- An overlay declaring format version `70000`, far outside any recognized
version set. -/
def tcBigVersion : TriggerCandidate :=
  { algorithm := 0, detid := 0, time_candidate := 0, time_end := 0
    time_start := 0, type := 0, version := 70000, n_inputs := 0
    sizeofBytes := 2, tas := [] }

/-- An external-library behaviour returning `tcBigVersion` at every offset. -/
def parseBigVersion : List Nat → TriggerCandidate := fun _ => tcBigVersion

/-- An external-library behaviour whose candidate depends on the offset (the
remaining-byte count is recorded in `time_candidate`), so successive records
of one buffer differ; each record consumes two bytes. -/
def parseVary : List Nat → TriggerCandidate := fun bs =>
  { algorithm := 0, detid := 0, time_candidate := bs.length, time_end := 0
    time_start := 0, type := 0, version := 0, n_inputs := 0
    sizeofBytes := 2, tas := [] }

/-- A two-record fragment buffer for `parseFour` (eight bytes, two records
of four bytes each). -/
def bufEight : List Nat := [1, 2, 3, 4, 5, 6, 7, 8]

/-- The state after decoding `validBuf` with `parseFour` from `initState`. -/
def stA : ReaderState :=
  { tc_data := [toTCData tcFour], ta_data := [[]], num_empty := 0 }

/-- The state after decoding `bufEight` with `parseFour` from `initState`. -/
def stB : ReaderState :=
  { tc_data := [toTCData tcFour, toTCData tcFour], ta_data := [[], []], num_empty := 0 }

/-- The state after decoding `validBuf` then `bufEight` with `parseFour`
from `initState`. -/
def stAB : ReaderState :=
  { tc_data := [toTCData tcFour, toTCData tcFour, toTCData tcFour]
    ta_data := [[], [], []], num_empty := 0 }

/-- A four-byte buffer holding two `parseVary` records, whose decoded
candidates differ (`time_candidate` 4 for the first, 2 for the second). -/
def bufVary : List Nat := [1, 2, 3, 4]

theorem scanLoop_stop (parse : List Nat → TriggerCandidate) (buf : List Nat)
    (fuel idx : Nat) (st : ReaderState) (last : List TCData)
    (h : ¬ idx < buf.length) :
    scanLoop parse buf fuel idx st last = .ok st last idx := by
  unfold scanLoop
  simp [h]

theorem scanLoop_hang0 (parse : List Nat → TriggerCandidate) (buf : List Nat)
    (idx : Nat) (st : ReaderState) (last : List TCData)
    (h : idx < buf.length) :
    scanLoop parse buf 0 idx st last = .hang := by
  unfold scanLoop
  simp [h]

theorem scanLoop_succ (parse : List Nat → TriggerCandidate) (buf : List Nat)
    (f idx : Nat) (st : ReaderState) (last : List TCData)
    (h : idx < buf.length) :
    scanLoop parse buf (f + 1) idx st last =
      match fillTAs (toTCData (parse (buf.drop idx))).num_tas (parse (buf.drop idx)).tas with
      | none =>
          .indexError
            { st with tc_data := st.tc_data ++ [toTCData (parse (buf.drop idx))] }
            (idx + (parse (buf.drop idx)).sizeofBytes)
      | some g =>
          scanLoop parse buf f (idx + (parse (buf.drop idx)).sizeofBytes)
            { st with tc_data := st.tc_data ++ [toTCData (parse (buf.drop idx))]
                      ta_data := st.ta_data ++ [g] }
            [toTCData (parse (buf.drop idx))] := by
  conv_lhs => rw [scanLoop]
  simp [h]

theorem fillTAs_length {n : Nat} {tas : List TAView} {g : List TAData}
    (h : fillTAs n tas = some g) : g.length = n := by
  unfold fillTAs at h
  by_cases hle : tas.length ≤ n
  · simp only [if_pos hle, Option.some.injEq] at h
    subst h
    simp only [List.length_append, List.length_map, List.length_replicate]
    omega
  · simp [if_neg hle] at h

theorem fillTAs_some_of_le {n : Nat} {tas : List TAView} (hle : tas.length ≤ n) :
    fillTAs n tas =
      some (tas.map toTAData ++ List.replicate (n - tas.length) zeroTA) := by
  unfold fillTAs
  simp [hle]

theorem fillTAs_none_of_lt {n : Nat} {tas : List TAView} (hlt : n < tas.length) :
    fillTAs n tas = none := by
  unfold fillTAs
  simp only [if_neg (by omega : ¬ tas.length ≤ n)]

theorem read_fragment_single (parse : List Nat → TriggerCandidate) (buf : List Nat)
    (st : ReaderState) (g : List TAData)
    (h0 : 0 < buf.length) (hsz : buf.length ≤ (parse buf).sizeofBytes)
    (hfill : fillTAs (toTCData (parse buf)).num_tas (parse buf).tas = some g) :
    read_fragment parse buf st =
      .ok
        { st with tc_data := st.tc_data ++ [toTCData (parse buf)]
                  ta_data := st.ta_data ++ [g] }
        [toTCData (parse buf)] ((parse buf).sizeofBytes) := by
  unfold read_fragment
  rw [if_neg (by omega : ¬ buf.length = 0)]
  obtain ⟨n, hn⟩ : ∃ n, buf.length = n + 1 := ⟨buf.length - 1, by omega⟩
  rw [hn]
  rw [scanLoop_succ parse buf n 0 st [] (by omega)]
  simp only [List.drop_zero, hfill, Nat.zero_add]
  exact scanLoop_stop parse buf n ((parse buf).sizeofBytes) _ _ (by omega)

theorem read_fragment_single_err (parse : List Nat → TriggerCandidate) (buf : List Nat)
    (st : ReaderState)
    (h0 : 0 < buf.length)
    (hfill : fillTAs (toTCData (parse buf)).num_tas (parse buf).tas = none) :
    read_fragment parse buf st =
      .indexError { st with tc_data := st.tc_data ++ [toTCData (parse buf)] }
        ((parse buf).sizeofBytes) := by
  unfold read_fragment
  rw [if_neg (by omega : ¬ buf.length = 0)]
  obtain ⟨n, hn⟩ : ∃ n, buf.length = n + 1 := ⟨buf.length - 1, by omega⟩
  rw [hn]
  rw [scanLoop_succ parse buf n 0 st [] (by omega)]
  simp only [List.drop_zero, hfill, Nat.zero_add]

/-- C5: reading a zero-length fragment yields zero candidates and zero
activities (`tc_data` and `ta_data` are unchanged), increments the
empty-fragment counter `_num_empty` by exactly one, and raises no error
condition (the call returns normally with the empty candidate array). -/
theorem C5_empty_fragment (parse : List Nat → TriggerCandidate) (buf : List Nat)
    (st : ReaderState) (h : buf.length = 0) :
    read_fragment parse buf st =
      .ok { st with num_empty := st.num_empty + 1 } [] 0 := by
  unfold read_fragment
  simp [h]

/-- Witness for C5 at the concrete empty buffer. -/
theorem C5_empty_fragment_witness :
    ([] : List Nat).length = 0 ∧
    read_fragment parseFour [] initState =
      .ok { tc_data := [], ta_data := [], num_empty := 1 } [] 0 :=
  ⟨rfl, C5_empty_fragment parseFour [] initState rfl⟩

/-- C9: `clear_data` empties both sequences, `__len__` then reports 0, and
a second `clear_data` succeeds and again leaves length 0 — the reset is
idempotent. -/
theorem C9_reset_idempotent (st : ReaderState) :
    (clear_data st).tc_data = [] ∧
    (clear_data st).ta_data = [] ∧
    readerLen (clear_data st) = 0 ∧
    clear_data (clear_data st) = clear_data st ∧
    readerLen (clear_data (clear_data st)) = 0 :=
  ⟨rfl, rfl, rfl, rfl, rfl⟩

/-- C1 counterexample: `validBuf` is a valid one-candidate fragment for the
overlay behaviour `parseFour` (decoding it consumes exactly its four bytes
and appends one candidate); `truncBuf` is the same buffer with the last
byte removed.  Scanning `truncBuf` raises no condition at all: it returns
normally, the candidate parsed from the truncated bytes IS appended
(`tc_data` goes from empty to one record), and the final byte index `4`
overshoots the buffer length `3`.  This falsifies the claim that the scan
raises `TruncatedRecord` and leaves the Dataset unchanged. -/
theorem C1_counterexample :
    read_fragment parseFour validBuf initState =
      .ok { tc_data := [toTCData tcFour], ta_data := [[]], num_empty := 0 }
        [toTCData tcFour] 4 ∧
    validBuf.length = 4 ∧
    truncBuf = validBuf.dropLast ∧
    truncBuf.length = 3 ∧
    read_fragment parseFour truncBuf initState =
      .ok { tc_data := [toTCData tcFour], ta_data := [[]], num_empty := 0 }
        [toTCData tcFour] 4 ∧
    ({ tc_data := [toTCData tcFour], ta_data := [[]], num_empty := 0 } : ReaderState)
      ≠ initState := by
  refine ⟨by decide, by decide, rfl, by decide, by decide, by decide⟩

/-- C1 amended: `read_fragment` performs no truncation check.  On any
buffer whose first record claims more bytes than the whole buffer holds
(in particular a valid one-candidate buffer with its last byte removed),
the scan decodes at offset 0 anyway, appends the resulting candidate and
its activity group to the Dataset, returns normally (no `TruncatedRecord`
condition exists in the code), and exits with its byte offset strictly
beyond the buffer length. -/
theorem C1_amended (parse : List Nat → TriggerCandidate) (buf : List Nat)
    (st : ReaderState) (g : List TAData)
    (h0 : 0 < buf.length)
    (hover : buf.length < (parse buf).sizeofBytes)
    (hfill : fillTAs (toTCData (parse buf)).num_tas (parse buf).tas = some g) :
    read_fragment parse buf st =
      .ok
        { st with tc_data := st.tc_data ++ [toTCData (parse buf)]
                  ta_data := st.ta_data ++ [g] }
        [toTCData (parse buf)] ((parse buf).sizeofBytes) ∧
    buf.length < (parse buf).sizeofBytes :=
  ⟨read_fragment_single parse buf st g h0 (by omega) hfill, hover⟩

/-- Witness for C1 amended at the concrete truncated buffer. -/
theorem C1_amended_witness :
    read_fragment parseFour truncBuf initState =
      .ok { tc_data := [toTCData tcFour], ta_data := [[]], num_empty := 0 }
        [toTCData tcFour] 4 ∧
    truncBuf.length < 4 := by
  have h := C1_amended parseFour truncBuf initState [] (by decide) (by decide) (by decide)
  exact ⟨h.1, h.2⟩

/-- C4 counterexample: the overlay behaviour `parseMismatch` declares two
activities (`num_tas = 2`) but its iterator yields only one, an
activity-count mismatch.  `read_fragment` nevertheless returns normally:
the missing second activity row is silently left as the all-zero row and
no failure of any kind is raised — falsifying the claim that a mismatch
always fails with a fatal `ActivityCountMismatch` condition. -/
theorem C4_counterexample :
    tcMismatch.tas.length ≠ (toTCData tcMismatch).num_tas ∧
    read_fragment parseMismatch [1, 2, 3] initState =
      .ok
        { tc_data := [toTCData tcMismatch]
          ta_data := [[toTAData taOne, zeroTA]]
          num_empty := 0 }
        [toTCData tcMismatch] 3 := by
  refine ⟨by decide, by decide⟩

/-- C4 amended: the code never compares the decoded activity count with the
declared one.  For a single-record buffer: when the iterator yields fewer
activities than the declared `num_tas`, the group is padded with all-zero
rows to the declared length and the call succeeds silently; when it yields
more, the call aborts with an uncaught NumPy `IndexError` (not any
`ActivityCountMismatch` condition), with the candidate already appended to
`tc_data` but no group appended to `ta_data`. -/
theorem C4_amended (parse : List Nat → TriggerCandidate) (buf : List Nat)
    (st : ReaderState)
    (h0 : 0 < buf.length)
    (hsz : buf.length ≤ (parse buf).sizeofBytes) :
    ((parse buf).tas.length ≤ (toTCData (parse buf)).num_tas →
      read_fragment parse buf st =
        .ok
          { st with tc_data := st.tc_data ++ [toTCData (parse buf)]
                    ta_data := st.ta_data ++
                      [(parse buf).tas.map toTAData ++
                       List.replicate
                         ((toTCData (parse buf)).num_tas - (parse buf).tas.length)
                         zeroTA] }
          [toTCData (parse buf)] ((parse buf).sizeofBytes)) ∧
    ((toTCData (parse buf)).num_tas < (parse buf).tas.length →
      read_fragment parse buf st =
        .indexError { st with tc_data := st.tc_data ++ [toTCData (parse buf)] }
          ((parse buf).sizeofBytes)) := by
  constructor
  · intro hle
    exact read_fragment_single parse buf st _ h0 hsz (fillTAs_some_of_le hle)
  · intro hlt
    exact read_fragment_single_err parse buf st h0 (fillTAs_none_of_lt hlt)

/-- Witness for C4 amended at the concrete mismatching overlay. -/
theorem C4_amended_witness :
    read_fragment parseMismatch [1, 2, 3] initState =
      .ok
        { tc_data := [toTCData tcMismatch]
          ta_data := [[toTAData taOne, zeroTA]]
          num_empty := 0 }
        [toTCData tcMismatch] 3 := by
  have h :=
    (C4_amended parseMismatch [1, 2, 3] initState (by decide) (by decide)).1 (by decide)
  exact h

/-- C6 counterexample: the overlay behaviour `parseBigVersion` declares
format version `70000`, outside any recognized version set, yet
`read_fragment` decodes the record anyway and appends it (with the version
stored modulo `2^16` as `4464`), returning normally — falsifying the claim
that an unrecognized version fails with `UnsupportedVersion`. -/
theorem C6_counterexample :
    tcBigVersion.version = 70000 ∧
    read_fragment parseBigVersion [1, 2] initState =
      .ok { tc_data := [toTCData tcBigVersion], ta_data := [[]], num_empty := 0 }
        [toTCData tcBigVersion] 2 ∧
    (toTCData tcBigVersion).version = 4464 ∧
    ([toTCData tcBigVersion] : List TCData) ≠ [] := by
  refine ⟨rfl, by decide, by decide, by decide⟩

/-- C6 amended: the code never inspects the declared format version.  For
every version value `v` the single-record decode proceeds identically: the
record is decoded under the external overlay's layout and appended, with
`v` stored modulo `2^16` in the dataset's `version` column; no
`UnsupportedVersion` condition exists on any path. -/
theorem C6_amended (parse : List Nat → TriggerCandidate) (buf : List Nat)
    (st : ReaderState) (g : List TAData) (v : Nat)
    (h0 : 0 < buf.length)
    (hsz : buf.length ≤ (parse buf).sizeofBytes)
    (hv : (parse buf).version = v)
    (hfill : fillTAs (toTCData (parse buf)).num_tas (parse buf).tas = some g) :
    read_fragment parse buf st =
      .ok
        { st with tc_data := st.tc_data ++ [toTCData (parse buf)]
                  ta_data := st.ta_data ++ [g] }
        [toTCData (parse buf)] ((parse buf).sizeofBytes) ∧
    (toTCData (parse buf)).version = wrapU 16 v := by
  refine ⟨read_fragment_single parse buf st g h0 hsz hfill, ?_⟩
  simp [toTCData, hv]

/-- Witness for C6 amended at version `70000`. -/
theorem C6_amended_witness :
    read_fragment parseBigVersion [1, 2] initState =
      .ok { tc_data := [toTCData tcBigVersion], ta_data := [[]], num_empty := 0 }
        [toTCData tcBigVersion] 2 ∧
    (toTCData tcBigVersion).version = wrapU 16 70000 := by
  have h :=
    C6_amended parseBigVersion [1, 2] initState [] 70000 (by decide) (by decide) rfl
      (by decide)
  exact ⟨h.1, h.2⟩

theorem aligned_initState : aligned initState :=
  ⟨rfl, fun i hi => by simp [initState] at hi⟩

theorem aligned_clear (st : ReaderState) : aligned (clear_data st) :=
  ⟨rfl, fun i hi => by simp [clear_data] at hi⟩

theorem aligned_append (st : ReaderState) (tc : TCData) (g : List TAData)
    (ha : aligned st) (hg : g.length = tc.num_tas) :
    aligned { st with tc_data := st.tc_data ++ [tc], ta_data := st.ta_data ++ [g] } := by
  obtain ⟨hlen, hidx⟩ := ha
  constructor
  · simp [hlen]
  · intro i hi
    simp only [List.length_append, List.length_singleton] at hi
    by_cases hlt : i < st.tc_data.length
    · have hlt' : i < st.ta_data.length := by omega
      show ((st.ta_data ++ [g]).getD i []).length = ((st.tc_data ++ [tc]).getD i tcZero).num_tas
      rw [List.getD_append _ _ _ _ hlt', List.getD_append _ _ _ _ hlt]
      exact hidx i hlt
    · have hieq : i = st.tc_data.length := by omega
      subst hieq
      show ((st.ta_data ++ [g]).getD st.tc_data.length []).length
        = ((st.tc_data ++ [tc]).getD st.tc_data.length tcZero).num_tas
      rw [hlen, List.getD_append_right _ _ _ _ (Nat.le_refl _),
        List.getD_append_right _ _ _ _ (by omega)]
      simp only [Nat.sub_self, hlen, List.getD]
      simpa using hg

theorem scanLoop_aligned (parse : List Nat → TriggerCandidate) (buf : List Nat) :
    ∀ (fuel idx : Nat) (st : ReaderState) (last : List TCData)
      (st2 : ReaderState) (l : List TCData) (i : Nat),
    aligned st → scanLoop parse buf fuel idx st last = .ok st2 l i → aligned st2 := by
  intro fuel
  induction fuel with
  | zero =>
    intro idx st last st2 l i ha h
    by_cases hidx : idx < buf.length
    · rw [scanLoop_hang0 _ _ _ _ _ hidx] at h
      exact absurd h (by simp)
    · rw [scanLoop_stop _ _ _ _ _ _ hidx] at h
      injection h with h1 _ _
      rw [← h1]
      exact ha
  | succ f ih =>
    intro idx st last st2 l i ha h
    by_cases hidx : idx < buf.length
    · rw [scanLoop_succ _ _ _ _ _ _ hidx] at h
      cases hfill : fillTAs (toTCData (parse (buf.drop idx))).num_tas
          (parse (buf.drop idx)).tas with
      | none =>
        rw [hfill] at h
        exact absurd h (by simp)
      | some g =>
        rw [hfill] at h
        exact ih _ _ _ _ _ _
          (aligned_append st (toTCData (parse (buf.drop idx))) g ha
            (fillTAs_length hfill)) h
    · rw [scanLoop_stop _ _ _ _ _ _ hidx] at h
      injection h with h1 _ _
      rw [← h1]
      exact ha

theorem read_fragment_aligned (parse : List Nat → TriggerCandidate) (buf : List Nat)
    (st st2 : ReaderState) (ret : List TCData) (i : Nat)
    (ha : aligned st) (h : read_fragment parse buf st = .ok st2 ret i) :
    aligned st2 := by
  unfold read_fragment at h
  by_cases h0 : buf.length = 0
  · rw [if_pos h0] at h
    injection h with h1 _ _
    rw [← h1]
    exact ⟨ha.1, ha.2⟩
  · rw [if_neg h0] at h
    exact scanLoop_aligned parse buf buf.length 0 st [] st2 ret i ha h

/-- C2: every state reachable through the public operations (`__init__`,
successful `read_fragment` calls, `clear_data`) satisfies the Dataset
alignment invariant: `len(tc_data) == len(ta_data)`, and for every index
`i` the activity group `ta_data[i]` has exactly the declared `num_tas` of
the candidate `tc_data[i]`. -/
theorem C2_alignment (parse : List Nat → TriggerCandidate) (st : ReaderState)
    (h : Reachable parse st) : aligned st := by
  induction h with
  | init => exact aligned_initState
  | read buf st' st2 ret i _ hread ih =>
      exact read_fragment_aligned parse buf st' st2 ret i ih hread
  | clear st' _ _ => exact aligned_clear st'

/-- Witness for C2 at the state reached by one concrete `read_fragment`. -/
theorem C2_alignment_witness :
    aligned { tc_data := [toTCData tcFour], ta_data := [[]], num_empty := 0 } :=
  C2_alignment parseFour _
    (Reachable.read validBuf initState
      { tc_data := [toTCData tcFour], ta_data := [[]], num_empty := 0 }
      [toTCData tcFour] 4 Reachable.init (by decide))

theorem scanLoop_wf (parse : List Nat → TriggerCandidate) (buf : List Nat) :
    ∀ (sizes : List Nat) (fuel idx : Nat) (st : ReaderState) (last : List TCData),
    WFfrom parse buf idx sizes → buf.length - idx ≤ fuel →
    ∃ st2 ret, scanLoop parse buf fuel idx st last = .ok st2 ret buf.length := by
  intro sizes
  induction sizes with
  | nil =>
    intro fuel idx st last hwf _
    have heq : idx = buf.length := hwf
    rw [scanLoop_stop parse buf fuel idx st last (by omega)]
    exact ⟨st, last, by rw [heq]⟩
  | cons s rest ih =>
    intro fuel idx st last hwf hfu
    obtain ⟨hlt, hsz, hpos, htas, hrest⟩ :
        idx < buf.length ∧
        (parse (buf.drop idx)).sizeofBytes = s ∧
        0 < s ∧
        (parse (buf.drop idx)).tas.length ≤ (toTCData (parse (buf.drop idx))).num_tas ∧
        WFfrom parse buf (idx + s) rest := hwf
    cases fuel with
    | zero => omega
    | succ f =>
      rw [scanLoop_succ parse buf f idx st last hlt]
      rw [fillTAs_some_of_le htas]
      rw [hsz]
      exact ih f (idx + s) _ _ hrest (by omega)

/-- C3: for every well-formed fragment buffer — one that is exactly a
concatenation of complete candidate records — the scan loop of
`read_fragment` terminates with its byte offset equal to the buffer size
exactly, never more and never less: the decoded records consume the whole
buffer. -/
theorem C3_coverage (parse : List Nat → TriggerCandidate) (buf : List Nat)
    (st : ReaderState) (sizes : List Nat)
    (hwf : WFfrom parse buf 0 sizes) :
    ∃ st2 ret, read_fragment parse buf st = .ok st2 ret buf.length := by
  unfold read_fragment
  by_cases h0 : buf.length = 0
  · rw [if_pos h0]
    exact ⟨_, _, by rw [h0]⟩
  · rw [if_neg h0]
    exact scanLoop_wf parse buf sizes buf.length 0 st [] hwf (by omega)

/-- Witness for C3 at a concrete well-formed one-record buffer. -/
theorem C3_coverage_witness :
    WFfrom parseFour validBuf 0 [4] ∧
    ∃ st2 ret, read_fragment parseFour validBuf initState = .ok st2 ret validBuf.length := by
  have hwf : WFfrom parseFour validBuf 0 [4] :=
    ⟨by decide, by decide, by decide, by decide,
      (by decide : (0 + 4 : Nat) = validBuf.length)⟩
  exact ⟨hwf, C3_coverage parseFour validBuf initState [4] hwf⟩

theorem scanLoop_no_hang (parse : List Nat → TriggerCandidate) (buf : List Nat)
    (hpos : ∀ i, i < buf.length → 0 < (parse (buf.drop i)).sizeofBytes) :
    ∀ (fuel idx : Nat) (st : ReaderState) (last : List TCData),
    buf.length - idx ≤ fuel →
    scanLoop parse buf fuel idx st last ≠ .hang := by
  intro fuel
  induction fuel with
  | zero =>
    intro idx st last hfu
    rw [scanLoop_stop parse buf 0 idx st last (by omega)]
    simp
  | succ f ih =>
    intro idx st last hfu
    by_cases hidx : idx < buf.length
    · rw [scanLoop_succ parse buf f idx st last hidx]
      cases hfill : fillTAs (toTCData (parse (buf.drop idx))).num_tas
          (parse (buf.drop idx)).tas with
      | none => simp
      | some g =>
        have := hpos idx hidx
        exact ih _ _ _ (by omega)
    · rw [scanLoop_stop _ _ _ _ _ _ hidx]
      simp

/-- C7: on any fragment buffer for which every candidate record the overlay
reports (at any offset) consumes at least one byte, each iteration of the
scan loop strictly increases the byte offset, and the loop terminates —
`read_fragment` never exhausts a fuel of one iteration per buffer byte. -/
theorem C7_progress (parse : List Nat → TriggerCandidate) (buf : List Nat)
    (st : ReaderState)
    (hpos : ∀ i, i < buf.length → 0 < (parse (buf.drop i)).sizeofBytes) :
    (∀ i, i < buf.length → i < i + (parse (buf.drop i)).sizeofBytes) ∧
    read_fragment parse buf st ≠ .hang := by
  constructor
  · intro i hi
    have := hpos i hi
    omega
  · unfold read_fragment
    by_cases h0 : buf.length = 0
    · simp [h0]
    · rw [if_neg h0]
      exact scanLoop_no_hang parse buf hpos buf.length 0 st [] (by omega)

/-- Witness for C7 at a concrete buffer and overlay behaviour. -/
theorem C7_progress_witness :
    (∀ i, i < validBuf.length → 0 < (parseFour (validBuf.drop i)).sizeofBytes) ∧
    read_fragment parseFour validBuf initState ≠ .hang := by
  have hpos : ∀ i, i < validBuf.length → 0 < (parseFour (validBuf.drop i)).sizeofBytes :=
    fun i _ => by show (0 : Nat) < 4; decide
  exact ⟨hpos, (C7_progress parseFour validBuf initState hpos).2⟩

theorem catStates_initState (st : ReaderState) : catStates st initState = st := by
  cases st
  simp [catStates, initState]

theorem shiftRes_shiftRes (a b : ReaderState) (r : ScanResult) :
    shiftRes a (shiftRes b r) = shiftRes (catStates a b) r := by
  cases r <;> simp [shiftRes, catStates, List.append_assoc, Nat.add_assoc]

theorem scanLoop_frame (parse : List Nat → TriggerCandidate) (buf : List Nat) :
    ∀ (fuel idx : Nat) (st : ReaderState) (last : List TCData),
    scanLoop parse buf fuel idx st last =
      shiftRes st (scanLoop parse buf fuel idx initState last) := by
  intro fuel
  induction fuel with
  | zero =>
    intro idx st last
    by_cases h : idx < buf.length
    · rw [scanLoop_hang0 _ _ _ _ _ h, scanLoop_hang0 _ _ _ _ _ h]
      rfl
    · rw [scanLoop_stop _ _ _ _ _ _ h, scanLoop_stop _ _ _ _ _ _ h]
      simp [shiftRes, catStates_initState]
  | succ f ih =>
    intro idx st last
    by_cases h : idx < buf.length
    · rw [scanLoop_succ _ _ _ _ _ _ h, scanLoop_succ _ _ _ _ _ _ h]
      cases hfill : fillTAs (toTCData (parse (buf.drop idx))).num_tas
          (parse (buf.drop idx)).tas with
      | none =>
        simp only [hfill, shiftRes]
        simp [catStates, initState]
      | some g =>
        simp only [hfill]
        conv_lhs => rw [ih]
        conv_rhs => rw [ih]
        rw [shiftRes_shiftRes]
        congr 1
    · rw [scanLoop_stop _ _ _ _ _ _ h, scanLoop_stop _ _ _ _ _ _ h]
      simp [shiftRes, catStates_initState]

theorem read_fragment_frame (parse : List Nat → TriggerCandidate) (buf : List Nat)
    (st : ReaderState) :
    read_fragment parse buf st = shiftRes st (read_fragment parse buf initState) := by
  unfold read_fragment
  by_cases h0 : buf.length = 0
  · rw [if_pos h0, if_pos h0]
    cases st
    simp [shiftRes, catStates, initState]
  · rw [if_neg h0, if_neg h0]
    exact scanLoop_frame parse buf buf.length 0 st []

/-- C8: decoding fragment `f1` and then `f2` into one Dataset yields the
same `tc_data` (and `ta_data`) sequences as decoding each fragment
independently into an empty Dataset and concatenating the results in that
order — decode order is preserved with no reordering and no deduplication,
and the second call's return value and final offset are unchanged by the
first fragment's presence. -/
theorem C8_order (parse : List Nat → TriggerCandidate) (f1 f2 : List Nat)
    (st1 st2 st12 : ReaderState) (r1 r2 r12 : List TCData) (i1 i2 i12 : Nat)
    (_h1 : read_fragment parse f1 initState = .ok st1 r1 i1)
    (h2 : read_fragment parse f2 initState = .ok st2 r2 i2)
    (h12 : read_fragment parse f2 st1 = .ok st12 r12 i12) :
    st12.tc_data = st1.tc_data ++ st2.tc_data ∧
    st12.ta_data = st1.ta_data ++ st2.ta_data ∧
    r12 = r2 ∧ i12 = i2 := by
  rw [read_fragment_frame parse f2 st1, h2] at h12
  simp only [shiftRes] at h12
  injection h12 with hst hr hi
  rw [← hst]
  exact ⟨rfl, rfl, hr.symm, hi.symm⟩

/-- Witness for C8 at two concrete fragments (one record, then two). -/
theorem C8_order_witness :
    stAB.tc_data = stA.tc_data ++ stB.tc_data ∧
    stAB.ta_data = stA.ta_data ++ stB.ta_data := by
  have h := C8_order parseFour validBuf bufEight stA stB stAB
    [toTCData tcFour] [toTCData tcFour] [toTCData tcFour] 4 8 8
    (by decide) (by decide) (by decide)
  exact ⟨h.1, h.2.1⟩

theorem scanLoop_last (parse : List Nat → TriggerCandidate) (buf : List Nat) :
    ∀ (fuel idx : Nat) (st : ReaderState) (last : List TCData)
      (st2 : ReaderState) (l : List TCData) (i : Nat),
    scanLoop parse buf fuel idx st last = .ok st2 l i →
    (¬ idx < buf.length ∧ st2 = st ∧ l = last) ∨
    (∃ tc, l = [tc] ∧ st2.tc_data.getLast? = some tc) := by
  intro fuel
  induction fuel with
  | zero =>
    intro idx st last st2 l i h
    by_cases hidx : idx < buf.length
    · rw [scanLoop_hang0 _ _ _ _ _ hidx] at h
      exact absurd h (by simp)
    · rw [scanLoop_stop _ _ _ _ _ _ hidx] at h
      injection h with h1 h2 _
      exact Or.inl ⟨hidx, h1.symm, h2.symm⟩
  | succ f ih =>
    intro idx st last st2 l i h
    by_cases hidx : idx < buf.length
    · rw [scanLoop_succ _ _ _ _ _ _ hidx] at h
      cases hfill : fillTAs (toTCData (parse (buf.drop idx))).num_tas
          (parse (buf.drop idx)).tas with
      | none =>
        rw [hfill] at h
        exact absurd h (by simp)
      | some g =>
        rw [hfill] at h
        rcases ih _ _ _ _ _ _ h with ⟨_, hst, hl⟩ | hr
        · refine Or.inr ⟨toTCData (parse (buf.drop idx)), hl, ?_⟩
          rw [hst]
          simp [List.getLast?_concat]
        · exact Or.inr hr
    · rw [scanLoop_stop _ _ _ _ _ _ hidx] at h
      injection h with h1 h2 _
      exact Or.inl ⟨hidx, h1.symm, h2.symm⟩

/-- C10: for a non-empty fragment, a normally returning `read_fragment`
returns a one-element array holding the LAST candidate decoded from that
fragment (the final value of the `np_tc_datum` loop variable, not the
first candidate as the docstring states); for an empty fragment it returns
the empty array of the candidate dtype. -/
theorem C10_returns_last (parse : List Nat → TriggerCandidate) (buf : List Nat)
    (st st2 : ReaderState) (ret : List TCData) (i : Nat)
    (h : read_fragment parse buf st = .ok st2 ret i) :
    (buf.length = 0 → ret = []) ∧
    (buf.length ≠ 0 → ∃ tc, ret = [tc] ∧ st2.tc_data.getLast? = some tc) := by
  unfold read_fragment at h
  by_cases h0 : buf.length = 0
  · rw [if_pos h0] at h
    injection h with _ h2 _
    exact ⟨fun _ => h2.symm, fun hc => absurd h0 hc⟩
  · rw [if_neg h0] at h
    refine ⟨fun hc => absurd hc h0, fun _ => ?_⟩
    rcases scanLoop_last parse buf buf.length 0 st [] st2 ret i h with ⟨hn, _, _⟩ | hr
    · exact absurd (by omega : 0 < buf.length) hn
    · exact hr

/-- Witness for C10 on a two-record fragment whose records differ: the
returned array holds the second (last) candidate. -/
theorem C10_returns_last_witness :
    read_fragment parseVary bufVary initState =
      .ok
        { tc_data := [toTCData (parseVary bufVary), toTCData (parseVary [3, 4])]
          ta_data := [[], []], num_empty := 0 }
        [toTCData (parseVary [3, 4])] 4 ∧
    (∃ tc, ([toTCData (parseVary [3, 4])] : List TCData) = [tc] ∧
      ([toTCData (parseVary bufVary), toTCData (parseVary [3, 4])] : List TCData).getLast?
        = some tc) ∧
    toTCData (parseVary bufVary) ≠ toTCData (parseVary [3, 4]) := by
  have hread : read_fragment parseVary bufVary initState =
      .ok
        { tc_data := [toTCData (parseVary bufVary), toTCData (parseVary [3, 4])]
          ta_data := [[], []], num_empty := 0 }
        [toTCData (parseVary [3, 4])] 4 := by decide
  have h := (C10_returns_last parseVary bufVary initState _ _ _ hread).2 (by decide)
  exact ⟨hread, h, by decide⟩
